import Mathlib

/-
  Verification development for the event-driven backtesting engine
  (automated_trading_event.py and
  parameters_optimisation_intraday_mean_reverting_pairs.py).

  The Python source is embedded shallowly:
  - floats are modelled as exact rationals,
  - the event queue is a FIFO list,
  - the two unbounded while-loops of Backtest._run_backtest are modelled
    with an explicit fuel argument,
  - python dict access with a KeyError handler is modelled with Except.
-/

/-! ## Event model (event.py section of automated_trading_event.py) -/

inductive Direction where
  | BUY
  | SELL
deriving DecidableEq

inductive OrderType where
  | MKT
  | LMT
deriving DecidableEq

inductive SignalType where
  | LONG
  | SHORT
deriving DecidableEq

/-- Payload of SignalEvent, fields as set in SignalEvent.init. -/
structure SignalEventData where
  strategy_id : Nat
  symbol : String
  datetime : Nat
  signal_type : SignalType
  strength : ℚ
deriving DecidableEq

/-- Payload of OrderEvent, fields as set in OrderEvent.init.
The source stores the quantity argument unchanged, with no check. -/
structure OrderEventData where
  symbol : String
  order_type : OrderType
  quantity : ℤ
  direction : Direction
deriving DecidableEq

/-- Payload of FillEvent, fields as set in FillEvent.init.
The source stores the quantity argument unchanged, with no check. -/
structure FillEventData where
  timeindex : Nat
  symbol : String
  exchange : String
  quantity : ℤ
  direction : Direction
  fill_cost : ℚ
  commission : ℚ
deriving DecidableEq

/-- The closed tagged union of events; the tag mirrors the string stored in
the type attribute of each event class. -/
inductive Event where
  | MARKET
  | SIGNAL (d : SignalEventData)
  | ORDER (d : OrderEventData)
  | FILL (d : FillEventData)
deriving DecidableEq

/-- OrderEvent.init: stores the four arguments; there is no validation of
quantity anywhere in the constructor. -/
def mkOrderEvent (symbol : String) (order_type : OrderType) (quantity : ℤ)
    (direction : Direction) : OrderEventData :=
  { symbol := symbol, order_type := order_type, quantity := quantity,
    direction := direction }

/-- calculate_ib_commission: full_cost starts at 1.3 (dead assignment kept
from the source), then is replaced by the branch on quantity <= 500. -/
def calculate_ib_commission (quantity : ℤ) : ℚ :=
  let full_cost : ℚ := 1.3
  let full_cost : ℚ :=
    if quantity ≤ 500 then max 1.3 (0.013 * (quantity : ℚ))
    else max 1.3 (0.008 * (quantity : ℚ))
  full_cost

/-- FillEvent.init: stores the six arguments; the commission attribute is
the supplied value when one is given, otherwise the value computed by
calculate_ib_commission from the stored quantity. -/
def mkFillEvent (timeindex : Nat) (symbol exchange : String) (quantity : ℤ)
    (direction : Direction) (fill_cost : ℚ) (commission : Option ℚ) :
    FillEventData :=
  { timeindex := timeindex, symbol := symbol, exchange := exchange,
    quantity := quantity, direction := direction, fill_cost := fill_cost,
    commission :=
      match commission with
      | none => calculate_ib_commission quantity
      | some c => c }

/-! ## Bars and the data handler (data.py section) -/

/-- One row of a symbol CSV after parsing: datetime index plus the named
columns open, high, low, close, volume, adj_close. -/
structure Bar where
  datetime : Nat
  open_ : ℚ
  high : ℚ
  low : ℚ
  close : ℚ
  volume : ℚ
  adj_close : ℚ
deriving DecidableEq

/-- Failure raised by the latest-bar queries: the KeyError branch of the
try blocks in HistoricCSVDataHandler, re-raised to the caller. -/
inductive QueryFailure where
  | UnknownSymbol
deriving DecidableEq

/-- Python tail slicing, l[start:] for an integer start: a negative start
counts from the end and clamps at 0; minus zero is zero, so l[-0:] is l. -/
def pyTailSlice {α : Type} (l : List α) (start : ℤ) : List α :=
  if start < 0 then l.drop ((l.length : ℤ) + start).toNat
  else l.drop start.toNat

/--
The combined state of one backtest run.  The fields of
HistoricCSVDataHandler and of Backtest are merged because the handler
holds a reference to the very same queue object (self.events) that the
Backtest owns:
  - symbol_list, symbol_data, pos, latest_symbol_data, continue_backtest
    belong to the data handler; symbol_data s is the reindexed bar series
    of s and pos s the position of its iterrows iterator;
  - events is the shared FIFO queue; signals, orders, fills are the
    Backtest counters.
The dict latest_symbol_data has exactly the keys of symbol_list (set in
the constructor loop), so key presence is membership in symbol_list.
-/
structure RunState where
  symbol_list : List String
  symbol_data : String → List Bar
  pos : String → Nat
  latest_symbol_data : String → List Bar
  continue_backtest : Bool
  events : List Event
  signals : Nat
  orders : Nat
  fills : Nat

/-- One iteration of the for-loop body of update_bars for symbol s:
next(self._get_new_bar(s)) either yields the bar at the current iterator
position, which is appended to latest_symbol_data[s] and — in this
source, inside the loop body — a MarketEvent is put on the queue, or
raises StopIteration, which sets continue_backtest to False.  iterrows
never yields None, so the bar-is-not-None guard is always true. -/
def update_bars_step (st : RunState) (s : String) : RunState :=
  match (st.symbol_data s)[st.pos s]? with
  | none => { st with continue_backtest := false }
  | some bar =>
      { st with
        pos := fun t => if t = s then st.pos s + 1 else st.pos t
        latest_symbol_data := fun t =>
          if t = s then st.latest_symbol_data t ++ [bar]
          else st.latest_symbol_data t
        events := st.events ++ [Event.MARKET] }

/-- HistoricCSVDataHandler.update_bars: the for-loop over symbol_list. -/
def update_bars (st : RunState) : RunState :=
  st.symbol_list.foldl update_bars_step st

/-- k successive calls of update_bars, first call first. -/
def run_update_calls : Nat → RunState → RunState
  | 0, st => st
  | Nat.succ k, st => run_update_calls k (update_bars st)

/-- The first while-loop of Backtest._run_backtest as written in the
source: while True, if continue_backtest then update_bars else break.
The loop has no bound in the source; fuel makes it structural. -/
def run_advance_loop : Nat → RunState → RunState
  | 0, st => st
  | Nat.succ fuel, st =>
      if st.continue_backtest then run_advance_loop fuel (update_bars st)
      else st

/-- The external collaborators, consumed through their push behaviour
only: the events each call puts on the queue.  Portfolio
update_timeindex and update_fill push nothing per the interface
contract, so they have no queue effect to model. -/
structure Collaborators where
  calculate_signals : Event → List Event
  update_signal : SignalEventData → List Event
  execute_order : OrderEventData → List Event

/-- The second while-loop of Backtest._run_backtest: pop the queue head
until Empty; dispatch on the type tag; pushes made by a collaborator are
appended to the same queue; the counters are incremented as in the
source. -/
def run_drain_loop (C : Collaborators) : Nat → RunState → RunState
  | 0, st => st
  | Nat.succ fuel, st =>
      match st.events with
      | [] => st
      | e :: rest =>
          match e with
          | Event.MARKET =>
              run_drain_loop C fuel
                { st with events := rest ++ C.calculate_signals Event.MARKET }
          | Event.SIGNAL d =>
              run_drain_loop C fuel
                { st with signals := st.signals + 1,
                          events := rest ++ C.update_signal d }
          | Event.ORDER d =>
              run_drain_loop C fuel
                { st with orders := st.orders + 1,
                          events := rest ++ C.execute_order d }
          | Event.FILL _ =>
              run_drain_loop C fuel
                { st with fills := st.fills + 1, events := rest }

/-- Backtest._run_backtest as written in this source: the advance loop
runs to feed exhaustion first, and only then does the single drain loop
run (the drain while-loop is at the same indentation level as the
advance while-loop, not nested inside it). -/
def run_backtest (C : Collaborators) (fuel : Nat) (st : RunState) : RunState :=
  run_drain_loop C fuel (run_advance_loop fuel st)

/-- HistoricCSVDataHandler.get_latest_bars: KeyError on a symbol outside
the dict (whose keys are symbol_list) propagates; otherwise the result
is the python slice bars_list[-N:]. -/
def get_latest_bars (st : RunState) (symbol : String) (N : Nat) :
    Except QueryFailure (List Bar) :=
  if symbol ∈ st.symbol_list then
    Except.ok (pyTailSlice (st.latest_symbol_data symbol) (-(N : ℤ)))
  else
    Except.error QueryFailure.UnknownSymbol

/-! ## Calendar construction (_open_convert_csv_files) -/

/-- pandas Index.union: the sorted union of two timestamp indices,
returned as a new index (the receiver is not mutated). -/
def index_union (ci other : List Nat) : List Nat :=
  ((ci ++ other).dedup).insertionSort (· ≤ ·)

/-- The comb_index accumulation of _open_convert_csv_files as written:
comb_index starts as None, becomes the index of the first symbol, and in
the else branch the call comb_index.union(...) is evaluated but its
result is discarded, so comb_index never changes again. -/
def comb_index_loop (symbol_list : List String) (idx : String → List Nat) :
    Option (List Nat) :=
  symbol_list.foldl
    (fun comb s =>
      match comb with
      | none => some (idx s)
      | some ci =>
          let _ := index_union ci (idx s)
          some ci)
    none

/-- Modelled from the spec: the intended Calendar of section 3 — the
union of every symbol native timestamps, sorted ascending — used here
only to compare against the comb_index the code actually builds. -/
def calendar_union (symbol_list : List String) (idx : String → List Nat) :
    List Nat :=
  (((symbol_list.map idx).flatten).dedup).insertionSort (· ≤ ·)

/-! ## Parameter sweep (backtest.py section) -/

/-- One point of the strategy parameter grid, the keyword dict built in
the main block: ols_window, zscore_high, zscore_low. -/
structure StratParams where
  ols_window : Nat
  zscore_high : ℚ
  zscore_low : ℚ
deriving DecidableEq

/-- The immutable construction inputs of the data handler: csv_dir plus
symbol_list determine the parsed, reindexed series handed to every
freshly constructed HistoricCSVDataHandler. -/
structure DataInit where
  symbol_list : List String
  symbol_data : String → List Bar

/-- Backtest._generate_trading_instances: builds a brand-new data
handler (fresh iterators at position 0, empty latest_symbol_data,
continue_backtest True), strategy, portfolio and execution handler, but
passes the existing self.events queue into them and leaves the signals,
orders and fills counters of the Backtest object untouched. -/
def generate_trading_instances (d : DataInit) (st : RunState) : RunState :=
  { symbol_list := d.symbol_list
    symbol_data := d.symbol_data
    pos := fun _ => 0
    latest_symbol_data := fun _ => []
    continue_backtest := true
    events := st.events
    signals := st.signals
    orders := st.orders
    fills := st.fills }

/-- One output row of simulate_trading: the three parameter values of the
configuration followed by the summary statistics taken from the
portfolio. -/
structure ResultRow where
  ols_window : Nat
  zscore_high : ℚ
  zscore_low : ℚ
  stats : List ℚ
deriving DecidableEq

/-- One iteration of the simulate_trading for-loop: rebuild the trading
instances for the configuration sp, run the backtest, and append exactly
one row for sp.  The summary statistics come from the external
portfolio, abstracted as the stats function; the collaborators of the
run are built from sp. -/
def sweep_step (C : StratParams → Collaborators) (stats : RunState → List ℚ)
    (fuel : Nat) (d : DataInit) (acc : RunState × List ResultRow)
    (sp : StratParams) : RunState × List ResultRow :=
  let st1 := generate_trading_instances d acc.1
  let st2 := run_backtest (C sp) fuel st1
  (st2, acc.2 ++ [{ ols_window := sp.ols_window, zscore_high := sp.zscore_high,
                    zscore_low := sp.zscore_low, stats := stats st2 }])

/-- Backtest.simulate_trading: iterate over strat_params_list in order,
starting from the state left by Backtest.init (empty queue, zero
counters), threading the shared state through every configuration. -/
def simulate_trading (C : StratParams → Collaborators)
    (stats : RunState → List ℚ) (fuel : Nat) (d : DataInit)
    (strat_params_list : List StratParams) (st0 : RunState) :
    RunState × List ResultRow :=
  strat_params_list.foldl (sweep_step C stats fuel d) (st0, [])

/-! ## Concrete states used by witnesses and counterexamples -/

/-- A small concrete bar. -/
def wBar1 : Bar :=
  { datetime := 1, open_ := 1, high := 1, low := 1, close := 1,
    volume := 1, adj_close := 1 }

/-- A second small concrete bar. -/
def wBar2 : Bar :=
  { datetime := 2, open_ := 2, high := 2, low := 2, close := 2,
    volume := 2, adj_close := 2 }

/-- A freshly constructed single-symbol feed with two calendar ticks. -/
def c1State : RunState :=
  { symbol_list := ["A"]
    symbol_data := fun _ => [wBar1, wBar2]
    pos := fun _ => 0
    latest_symbol_data := fun _ => []
    continue_backtest := true
    events := []
    signals := 0
    orders := 0
    fills := 0 }

/-- A freshly constructed two-symbol feed, one remaining bar each. -/
def c2State : RunState :=
  { symbol_list := ["A", "B"]
    symbol_data := fun s => if s = "A" then [wBar1] else [wBar2]
    pos := fun _ => 0
    latest_symbol_data := fun _ => []
    continue_backtest := true
    events := []
    signals := 0
    orders := 0
    fills := 0 }

/-- A freshly constructed two-symbol feed with two bars per symbol. -/
def wSt : RunState :=
  { symbol_list := ["A", "B"]
    symbol_data := fun _ => [wBar1, wBar2]
    pos := fun _ => 0
    latest_symbol_data := fun _ => []
    continue_backtest := true
    events := []
    signals := 0
    orders := 0
    fills := 0 }

/-- A handler state in which symbol A has exactly one recorded bar. -/
def qSt : RunState :=
  { symbol_list := ["A"]
    symbol_data := fun _ => [wBar1]
    pos := fun _ => 1
    latest_symbol_data := fun s => if s = "A" then [wBar1] else []
    continue_backtest := true
    events := []
    signals := 0
    orders := 0
    fills := 0 }

/-- A concrete signal payload pushed by the stub strategy. -/
def stubSignal : SignalEventData :=
  { strategy_id := 1, symbol := "A", datetime := 0,
    signal_type := SignalType.LONG, strength := 1 }

/-- Stub collaborators: the strategy pushes one Signal per Market event,
the portfolio and execution push nothing. -/
def stubCollabs : Collaborators :=
  { calculate_signals := fun _ => [Event.SIGNAL stubSignal]
    update_signal := fun _ => []
    execute_order := fun _ => [] }

/-- Construction inputs of a one-symbol, one-tick feed. -/
def c3Data : DataInit :=
  { symbol_list := ["A"], symbol_data := fun _ => [wBar1] }

/-- The state established by Backtest.init: empty queue, zero counters;
the handler fields are filled in by generate_trading_instances. -/
def c3Init : RunState :=
  { symbol_list := []
    symbol_data := fun _ => []
    pos := fun _ => 0
    latest_symbol_data := fun _ => []
    continue_backtest := true
    events := []
    signals := 0
    orders := 0
    fills := 0 }

/-- A concrete grid point. -/
def c3Params : StratParams :=
  { ols_window := 50, zscore_high := 3, zscore_low := 1 }

/-- Concrete per-symbol native timestamp indices: symbol A has [1, 3],
symbol B has [1, 2, 3]. -/
def c6_idx : String → List Nat :=
  fun s => if s = "A" then [1, 3] else [1, 2, 3]

/-! ## Helper lemmas -/

theorem run_update_calls_succ (k : Nat) (st : RunState) :
    run_update_calls (k + 1) st = update_bars (run_update_calls k st) := by
  induction k generalizing st with
  | zero => rfl
  | succ k ih =>
      show run_update_calls (k + 1) (update_bars st) = _
      rw [ih]
      rfl

/-! ## Claim theorems -/

/-- C4: for every non-negative integer quantity, calculate_ib_commission
returns max(1.3, 0.013 * quantity) when quantity <= 500 and
max(1.3, 0.008 * quantity) when quantity > 500, and the result is never
below 1.3. -/
theorem c4_commission_formula (q : ℤ) (h : 0 ≤ q) :
    (q ≤ 500 → calculate_ib_commission q = max 1.3 (0.013 * (q : ℚ))) ∧
    (500 < q → calculate_ib_commission q = max 1.3 (0.008 * (q : ℚ))) ∧
    (1.3 : ℚ) ≤ calculate_ib_commission q := by
  unfold calculate_ib_commission
  by_cases hq : q ≤ 500
  · rw [if_pos hq]
    exact ⟨fun _ => rfl, fun hgt => absurd hq (not_le.mpr hgt), le_max_left _ _⟩
  · rw [if_neg hq]
    exact ⟨fun hle => absurd hle hq, fun _ => rfl, le_max_left _ _⟩

/-- C4 witness: the scenario values — quantity 100 gives 1.3 and
quantity 1000 gives 8.0. -/
theorem c4_commission_formula_witness :
    calculate_ib_commission 100 = 1.3 ∧ calculate_ib_commission 1000 = 8 := by
  constructor
  · have h := (c4_commission_formula 100 (by norm_num)).1 (by norm_num)
    rw [h]; norm_num
  · have h := (c4_commission_formula 1000 (by norm_num)).2.1 (by norm_num)
    rw [h]; norm_num

/-- C5 counterexample: constructing an Order event and a Fill event with
the negative quantity -5 succeeds and stores -5; no failure occurs. -/
theorem c5_counterexample :
    (mkOrderEvent "AAPL" OrderType.MKT (-5) Direction.BUY).quantity = -5 ∧
    (mkFillEvent 0 "AAPL" "ARCA" (-5) Direction.BUY 0 (some 2)).quantity = -5 ∧
    (-5 : ℤ) < 0 := by
  refine ⟨rfl, rfl, by norm_num⟩

/-- C5 amended: Order and Fill construction performs no quantity
validation at all: it succeeds for every integer quantity, negative ones
included, and stores the quantity argument unchanged. -/
theorem c5_no_validation (sym e : String) (ot : OrderType) (q : ℤ)
    (dir : Direction) (t : Nat) (fc : ℚ) (c : Option ℚ) :
    (mkOrderEvent sym ot q dir).quantity = q ∧
    (mkFillEvent t sym e q dir fc c).quantity = q :=
  ⟨rfl, rfl⟩

/-- C9: a Fill built with an explicit commission stores that value
unchanged, for every supplied value, and a Fill built without one stores
exactly the value computed by calculate_ib_commission from the quantity;
the two paths are mutually exclusive branches of the same match. -/
theorem c9_commission_paths (t : Nat) (sym e : String) (q : ℤ)
    (dir : Direction) (fc c : ℚ) :
    (mkFillEvent t sym e q dir fc (some c)).commission = c ∧
    (mkFillEvent t sym e q dir fc none).commission =
      calculate_ib_commission q :=
  ⟨rfl, rfl⟩

/-- C2 code evaluation: on a two-symbol feed with one remaining bar per
symbol, a single update_bars call enqueues two Market events — one per
symbol, because the put call sits inside the per-symbol loop — and the
feed still reports Advanced (continue_backtest stays true). -/
theorem c2_code_evaluation :
    (update_bars c2State).events = [Event.MARKET, Event.MARKET] ∧
    (update_bars c2State).continue_backtest = true ∧
    ¬ (update_bars c2State).events.length = 1 := by
  refine ⟨by decide, by decide, by decide⟩

/-- C6 code evaluation: with symbol A native timestamps [1, 3] and
symbol B native timestamps [1, 2, 3], the comb_index the constructor
builds is the index of the first symbol, [1, 3], because the result of
the union call is discarded; it differs from the sorted union
[1, 2, 3] that the specification defines as the Calendar. -/
theorem c6_code_evaluation :
    comb_index_loop ["A", "B"] c6_idx = some [1, 3] ∧
    calendar_union ["A", "B"] c6_idx = [1, 2, 3] ∧
    comb_index_loop ["A", "B"] c6_idx ≠
      some (calendar_union ["A", "B"] c6_idx) := by
  refine ⟨by decide, by decide, by decide⟩

/-- C10: for a configured symbol, get_latest_bars with N = 0 returns the
entire recorded history, because the slice bars_list[-0:] is the whole
list. -/
theorem c10_zero_returns_all (st : RunState) (s : String)
    (h : s ∈ st.symbol_list) :
    get_latest_bars st s 0 = Except.ok (st.latest_symbol_data s) := by
  unfold get_latest_bars pyTailSlice
  rw [if_pos h]
  norm_num

/-- C10 witness: on a state where symbol A has one recorded bar, the
query with N = 0 returns that whole history, which is not empty. -/
theorem c10_zero_returns_all_witness :
    get_latest_bars qSt "A" 0 = Except.ok (qSt.latest_symbol_data "A") ∧
    qSt.latest_symbol_data "A" = [wBar1] ∧ [wBar1] ≠ ([] : List Bar) :=
  ⟨c10_zero_returns_all qSt "A" (by decide), by decide, by decide⟩

/-- C8 counterexample: with symbol A holding one recorded bar, the query
with requested count 0 returns one bar, not at most zero bars, so the
claim fails for the requested count n = 0. -/
theorem c8_counterexample :
    get_latest_bars qSt "A" 0 = Except.ok [wBar1] ∧
    ¬ (∀ r, get_latest_bars qSt "A" 0 = Except.ok r → r.length ≤ 0) := by
  constructor
  · rfl
  · intro hall
    have h1 := hall [wBar1] rfl
    simp at h1

/-- C8 amended: for every requested count N at least 1, the query on a
configured symbol returns the most recent min(N, history length) bars,
in order, as a suffix of the recorded history — never an error for
insufficient history — and the query fails, with UnknownSymbol, exactly
for symbols that were never configured. -/
theorem c8_latest_bars (st : RunState) (s : String) (N : Nat) :
    (s ∉ st.symbol_list →
      get_latest_bars st s N = Except.error QueryFailure.UnknownSymbol) ∧
    (s ∈ st.symbol_list → 1 ≤ N →
      get_latest_bars st s N =
        Except.ok ((st.latest_symbol_data s).drop
          ((st.latest_symbol_data s).length - N)) ∧
      ((st.latest_symbol_data s).drop
          ((st.latest_symbol_data s).length - N)).length =
        min N (st.latest_symbol_data s).length ∧
      (st.latest_symbol_data s).drop ((st.latest_symbol_data s).length - N)
        <:+ (st.latest_symbol_data s)) := by
  constructor
  · intro hns
    unfold get_latest_bars
    rw [if_neg hns]
  · intro hs hN
    refine ⟨?_, ?_, List.drop_suffix _ _⟩
    · unfold get_latest_bars pyTailSlice
      rw [if_pos hs]
      have hneg : (-(N : ℤ)) < 0 := by
        have : (0 : ℤ) < (N : ℤ) := by exact_mod_cast hN
        omega
      rw [if_pos hneg]
      have harith : ((((st.latest_symbol_data s).length : ℤ)) + -(N : ℤ)).toNat
          = (st.latest_symbol_data s).length - N := by omega
      rw [harith]
    · rw [List.length_drop]
      omega

/-- C8 witness: the unknown-symbol branch at symbol B and the
known-symbol branch at symbol A with N = 1 on the concrete state. -/
theorem c8_latest_bars_witness :
    get_latest_bars qSt "B" 1 = Except.error QueryFailure.UnknownSymbol ∧
    (get_latest_bars qSt "A" 1 =
        Except.ok ((qSt.latest_symbol_data "A").drop
          ((qSt.latest_symbol_data "A").length - 1)) ∧
      ((qSt.latest_symbol_data "A").drop
          ((qSt.latest_symbol_data "A").length - 1)).length =
        min 1 (qSt.latest_symbol_data "A").length ∧
      (qSt.latest_symbol_data "A").drop ((qSt.latest_symbol_data "A").length - 1)
        <:+ (qSt.latest_symbol_data "A")) :=
  ⟨(c8_latest_bars qSt "B" 1).1 (by decide),
   (c8_latest_bars qSt "A" 1).2 (by decide) (by decide)⟩

/-- C1 code evaluation: on a single-symbol feed with two calendar ticks
and a stub strategy that pushes one Signal per Market event, the advance
loop of the source enqueues both Market events before the drain loop
starts — the queue holds both Market events simultaneously while no
event at all has been processed (all counters zero) — and only the later
single drain pass processes the cascade, ending with two signals. -/
theorem c1_code_evaluation :
    (run_advance_loop 10 c1State).events = [Event.MARKET, Event.MARKET] ∧
    (run_advance_loop 10 c1State).signals = 0 ∧
    (run_advance_loop 10 c1State).orders = 0 ∧
    (run_advance_loop 10 c1State).fills = 0 ∧
    (run_backtest stubCollabs 10 c1State).signals = 2 := by
  refine ⟨by decide, by decide, by decide, by decide, by decide⟩

/-- C3 counterexample: with a one-tick, one-symbol feed and a stub
strategy that emits one Signal per Market event, the first configuration
run ends with the signals counter at 1, and the Run Context built for
the second configuration by generate_trading_instances still carries
signals = 1 — its counters are not zeroed. -/
theorem c3_counterexample :
    (generate_trading_instances c3Data
        (sweep_step (fun _ => stubCollabs) (fun _ => []) 10 c3Data
          (c3Init, []) c3Params).1).signals = 1 ∧
    (1 : Nat) ≠ 0 := by
  refine ⟨by decide, by decide⟩

theorem sweep_rows_aux (C : StratParams → Collaborators)
    (stats : RunState → List ℚ) (fuel : Nat) (d : DataInit)
    (ps : List StratParams) :
    ∀ acc : RunState × List ResultRow,
      ((ps.foldl (sweep_step C stats fuel d) acc).2).map
          (fun r => (r.ols_window, r.zscore_high, r.zscore_low)) =
        acc.2.map (fun r => (r.ols_window, r.zscore_high, r.zscore_low)) ++
          ps.map (fun sp => (sp.ols_window, sp.zscore_high, sp.zscore_low)) := by
  induction ps with
  | nil => intro acc; simp
  | cons sp tl ih =>
      intro acc
      rw [List.foldl_cons, ih]
      simp [sweep_step]

/-- C3 amended: the sweep appends exactly one result row per
configuration, in configuration order, so the number of rows equals the
number of configurations with none skipped or duplicated, and each
generate_trading_instances call rebuilds the feed fields fresh (iterator
positions 0, empty histories, continue_backtest true, the configured
series); but the event queue and the signal, order and fill counters are
carried over unreset from the previous configuration. -/
theorem c3_sweep_rows_and_carryover (C : StratParams → Collaborators)
    (stats : RunState → List ℚ) (fuel : Nat) (d : DataInit)
    (ps : List StratParams) (st0 : RunState) :
    ((simulate_trading C stats fuel d ps st0).2).map
        (fun r => (r.ols_window, r.zscore_high, r.zscore_low)) =
      ps.map (fun sp => (sp.ols_window, sp.zscore_high, sp.zscore_low)) ∧
    ((simulate_trading C stats fuel d ps st0).2).length = ps.length ∧
    (∀ st : RunState,
      (generate_trading_instances d st).symbol_list = d.symbol_list ∧
      (generate_trading_instances d st).symbol_data = d.symbol_data ∧
      (generate_trading_instances d st).pos = (fun _ => 0) ∧
      (generate_trading_instances d st).latest_symbol_data =
        (fun _ => ([] : List Bar)) ∧
      (generate_trading_instances d st).continue_backtest = true) ∧
    (∀ st : RunState,
      (generate_trading_instances d st).events = st.events ∧
      (generate_trading_instances d st).signals = st.signals ∧
      (generate_trading_instances d st).orders = st.orders ∧
      (generate_trading_instances d st).fills = st.fills) := by
  have hmap := sweep_rows_aux C stats fuel d ps (st0, [])
  refine ⟨by simpa [simulate_trading] using hmap, ?_, ?_, ?_⟩
  · have hlen := congrArg List.length hmap
    simpa [simulate_trading] using hlen
  · intro st
    exact ⟨rfl, rfl, rfl, rfl, rfl⟩
  · intro st
    exact ⟨rfl, rfl, rfl, rfl⟩

theorem foldl_step_advance (l : List String) :
    ∀ st : RunState, l.Nodup →
    (∀ s ∈ l, st.pos s < (st.symbol_data s).length) →
    (l.foldl update_bars_step st).symbol_list = st.symbol_list ∧
    (l.foldl update_bars_step st).symbol_data = st.symbol_data ∧
    (l.foldl update_bars_step st).continue_backtest = st.continue_backtest ∧
    ∀ t, (l.foldl update_bars_step st).pos t =
      if t ∈ l then st.pos t + 1 else st.pos t := by
  induction l with
  | nil =>
      intro st _ _
      refine ⟨rfl, rfl, rfl, ?_⟩
      intro t
      simp
  | cons s tl ih =>
      intro st hnd h
      have hs : st.pos s < (st.symbol_data s).length :=
        h s (List.mem_cons_self s tl)
      have hnd2 := List.nodup_cons.mp hnd
      have hstep : update_bars_step st s =
          { st with
            pos := fun t => if t = s then st.pos s + 1 else st.pos t
            latest_symbol_data := fun t =>
              if t = s then
                st.latest_symbol_data t ++ [(st.symbol_data s)[st.pos s]]
              else st.latest_symbol_data t
            events := st.events ++ [Event.MARKET] } := by
        unfold update_bars_step
        rw [List.getElem?_eq_getElem hs]
      rw [List.foldl_cons, hstep]
      obtain ⟨ih1, ih2, ih3, ih4⟩ := ih
        { st with
          pos := fun t => if t = s then st.pos s + 1 else st.pos t
          latest_symbol_data := fun t =>
            if t = s then
              st.latest_symbol_data t ++ [(st.symbol_data s)[st.pos s]]
            else st.latest_symbol_data t
          events := st.events ++ [Event.MARKET] }
        hnd2.2
        (by
          intro x hx
          have hxs : x ≠ s := fun hEq => hnd2.1 (hEq ▸ hx)
          simpa [hxs] using h x (List.mem_cons_of_mem s hx))
      refine ⟨ih1, ih2, ih3, ?_⟩
      intro t
      rw [ih4 t]
      by_cases ht : t = s
      · subst ht
        simp [hnd2.1]
      · simp [ht, List.mem_cons]

theorem foldl_step_exhaust (l : List String) :
    ∀ st : RunState,
    (∀ s ∈ l, (st.symbol_data s).length ≤ st.pos s) →
    (l.foldl update_bars_step st).symbol_list = st.symbol_list ∧
    (l.foldl update_bars_step st).symbol_data = st.symbol_data ∧
    (l.foldl update_bars_step st).pos = st.pos ∧
    (l ≠ [] → (l.foldl update_bars_step st).continue_backtest = false) := by
  induction l with
  | nil =>
      intro st _
      exact ⟨rfl, rfl, rfl, fun hcon => absurd rfl hcon⟩
  | cons s tl ih =>
      intro st h
      have hs : (st.symbol_data s).length ≤ st.pos s :=
        h s (List.mem_cons_self s tl)
      have hnone : (st.symbol_data s)[st.pos s]? = none :=
        List.getElem?_eq_none hs
      have hstep : update_bars_step st s =
          { st with continue_backtest := false } := by
        unfold update_bars_step
        rw [hnone]
      rw [List.foldl_cons, hstep]
      obtain ⟨ih1, ih2, ih3, ih4⟩ := ih { st with continue_backtest := false }
        (by intro x hx; exact h x (List.mem_cons_of_mem s hx))
      refine ⟨ih1, ih2, ih3, fun _ => ?_⟩
      by_cases htl : tl = []
      · subst htl
        rfl
      · exact ih4 htl

theorem c7_invariant (st : RunState) (L : Nat)
    (hnd : st.symbol_list.Nodup)
    (hflag : st.continue_backtest = true)
    (hpos : ∀ s ∈ st.symbol_list, st.pos s = 0)
    (hlen : ∀ s ∈ st.symbol_list, (st.symbol_data s).length = L) :
    ∀ k, k ≤ L →
      (run_update_calls k st).symbol_list = st.symbol_list ∧
      (run_update_calls k st).symbol_data = st.symbol_data ∧
      (run_update_calls k st).continue_backtest = true ∧
      ∀ s ∈ st.symbol_list, (run_update_calls k st).pos s = k := by
  intro k
  induction k with
  | zero =>
      intro _
      exact ⟨rfl, rfl, hflag, fun s hs => hpos s hs⟩
  | succ k ih =>
      intro hk
      obtain ⟨h1, h2, h3, h4⟩ := ih (Nat.le_of_succ_le hk)
      have hub : update_bars (run_update_calls k st) =
          (run_update_calls k st).symbol_list.foldl update_bars_step
            (run_update_calls k st) := rfl
      have hnd2 : (run_update_calls k st).symbol_list.Nodup := by
        rw [h1]; exact hnd
      have hlt : ∀ s ∈ (run_update_calls k st).symbol_list,
          (run_update_calls k st).pos s <
            ((run_update_calls k st).symbol_data s).length := by
        intro s hs
        rw [h1] at hs
        rw [h2, h4 s hs, hlen s hs]
        omega
      obtain ⟨g1, g2, g3, g4⟩ :=
        foldl_step_advance (run_update_calls k st).symbol_list
          (run_update_calls k st) hnd2 hlt
      rw [run_update_calls_succ, hub]
      refine ⟨by rw [g1, h1], by rw [g2, h2], by rw [g3, h3], ?_⟩
      intro s hs
      have hs2 : s ∈ (run_update_calls k st).symbol_list := by
        rw [h1]; exact hs
      rw [g4 s, if_pos hs2, h4 s hs]

theorem advance_loop_stops : ∀ (n : Nat) (st : RunState) (m : Nat),
    (∀ k, k < n → (run_update_calls k st).continue_backtest = true) →
    (run_update_calls n st).continue_backtest = false →
    run_advance_loop (n + 1 + m) st = run_update_calls n st := by
  intro n
  induction n with
  | zero =>
      intro st m _ h2
      have hflag : st.continue_backtest = false := h2
      have e : 0 + 1 + m = m + 1 := by omega
      rw [e]
      simp [run_advance_loop, run_update_calls, hflag]
  | succ n ih =>
      intro st m h1 h2
      have hflag : st.continue_backtest = true := h1 0 (Nat.succ_pos n)
      have e : n + 1 + 1 + m = (n + 1 + m) + 1 := by omega
      rw [e]
      have step : run_advance_loop ((n + 1 + m) + 1) st =
          run_advance_loop (n + 1 + m) (update_bars st) := by
        simp [run_advance_loop, hflag]
      rw [step]
      have h1b : ∀ k, k < n →
          (run_update_calls k (update_bars st)).continue_backtest = true := by
        intro k hk
        exact h1 (k + 1) (Nat.succ_lt_succ hk)
      have h2b : (run_update_calls n (update_bars st)).continue_backtest
          = false := h2
      exact ih (update_bars st) m h1b h2b

/-- C7: on a feed whose configured symbols each carry L reindexed bars
(the calendar length), starting from a fresh handler, the first L
update_bars calls all succeed with the feed still reporting Advanced
(continue_backtest true, every iterator advanced in lockstep to
position k after k calls); the (L+1)-th call reports Exhausted — and at
that moment every configured symbol is already at the end of its
series, position L of L, so exhaustion is reported only once every
symbol has no further calendar position; and the advance loop of
Backtest._run_backtest stops after exactly those L + 1 calls whatever
fuel remains. -/
theorem c7_termination (st : RunState) (L : Nat)
    (hnd : st.symbol_list.Nodup) (hne : st.symbol_list ≠ [])
    (hflag : st.continue_backtest = true)
    (hpos : ∀ s ∈ st.symbol_list, st.pos s = 0)
    (hlen : ∀ s ∈ st.symbol_list, (st.symbol_data s).length = L) :
    (∀ k, k ≤ L →
      (run_update_calls k st).continue_backtest = true ∧
      ∀ s ∈ st.symbol_list,
        (run_update_calls k st).pos s = k ∧
        (run_update_calls k st).symbol_data s = st.symbol_data s) ∧
    (run_update_calls (L + 1) st).continue_backtest = false ∧
    (∀ m, run_advance_loop (L + 2 + m) st = run_update_calls (L + 1) st) := by
  have hinv := c7_invariant st L hnd hflag hpos hlen
  have hlast : (run_update_calls (L + 1) st).continue_backtest = false := by
    obtain ⟨h1, h2, h3, h4⟩ := hinv L le_rfl
    have hub : update_bars (run_update_calls L st) =
        (run_update_calls L st).symbol_list.foldl update_bars_step
          (run_update_calls L st) := rfl
    have hge : ∀ s ∈ (run_update_calls L st).symbol_list,
        ((run_update_calls L st).symbol_data s).length ≤
          (run_update_calls L st).pos s := by
      intro s hs
      rw [h1] at hs
      rw [h2, h4 s hs, hlen s hs]
    obtain ⟨g1, g2, g3, g4⟩ :=
      foldl_step_exhaust (run_update_calls L st).symbol_list
        (run_update_calls L st) hge
    rw [run_update_calls_succ, hub]
    exact g4 (by rw [h1]; exact hne)
  refine ⟨?_, hlast, ?_⟩
  · intro k hk
    obtain ⟨h1, h2, h3, h4⟩ := hinv k hk
    exact ⟨h3, fun s hs => ⟨h4 s hs, by rw [h2]⟩⟩
  · intro m
    have h1 : ∀ k, k < L + 1 →
        (run_update_calls k st).continue_backtest = true := by
      intro k hk
      exact (hinv k (Nat.lt_succ_iff.mp hk)).2.2.1
    exact advance_loop_stops (L + 1) st m h1 hlast

/-- C7 witness: the two-symbol feed with two bars per symbol — two
advancing calls keep the feed in Advanced, the third call reports
Exhausted with both symbols out of data, and the advance loop with fuel
10 stops exactly there. -/
theorem c7_termination_witness :
    (run_update_calls 2 wSt).continue_backtest = true ∧
    (run_update_calls 3 wSt).continue_backtest = false ∧
    run_advance_loop 10 wSt = run_update_calls 3 wSt := by
  have h := c7_termination wSt 2 (by decide) (by decide) rfl
    (by intro s hs; rfl) (by intro s hs; rfl)
  exact ⟨(h.1 2 le_rfl).1, h.2.1, h.2.2 6⟩
